import Mathlib

/-!
Verification of the speaker-diarization service (`src/diar-service/app.py`)
against its natural-language specification.

The embedding translates the request handler `process_audio`, the
`health_check` endpoint and the hyperparameter-override section of
`load_pipeline` into pure Lean functions.  Python floats carrying audio
timestamps are modelled as rationals (`ℚ`); the arithmetic performed on
them (subtraction, `max`) is exact at this granularity.  The external
effects of one request (temporary-file staging, the pyannote engine call,
temporary-file removal) are modelled by a `World` record listing the
outcome of each effect, and the handler is a pure function of the upload,
the pipeline-presence flag and that world.
-/

namespace DiarService

/-! ### Python string primitives used by the handler -/

/-- Index of the last occurrence of `c` in `cs` (Python `str.rfind`),
`-1` when absent. -/
def rfind (cs : List Char) (c : Char) : Int :=
  match cs with
  | [] => -1
  | x :: xs =>
    let r := rfind xs c
    if r ≥ 0 then r + 1 else if x = c then 0 else -1

/-- The extension component of `os.path.splitext` (posix rules): the suffix
from the last dot, provided that dot lies after the last path separator and
the basename has at least one non-dot character before it. -/
def splitext_ext (p : String) : String :=
  let cs := p.data
  let sepIndex : Int := rfind cs '/'
  let dotIndex : Int := rfind cs '.'
  if dotIndex > sepIndex then
    let between := (cs.drop (sepIndex + 1).toNat).take (dotIndex - (sepIndex + 1)).toNat
    if between.any (fun ch => ch ≠ '.') then ⟨cs.drop dotIndex.toNat⟩ else ""
  else ""

/-- Python `str.lower` restricted to ASCII, which is all the handler
compares (file extensions). -/
def lowerStr (s : String) : String := ⟨s.data.map Char.toLower⟩

/-- Python `content_type.startswith('audio/')`. -/
def startsWithAudio (s : String) : Bool := "audio/".data.isPrefixOf s.data

/-- Lexicographic code-point comparison on character lists, the order
Python `sorted` uses on strings. -/
def lexLt : List Char → List Char → Bool
  | [], [] => false
  | [], _ :: _ => true
  | _ :: _, [] => false
  | x :: xs, y :: ys =>
    if x.toNat < y.toNat then true
    else if y.toNat < x.toNat then false
    else lexLt xs ys

/-- Python `<` on strings (code-point lexicographic order). -/
def strLt (a b : String) : Bool := lexLt a.data b.data

/-- Insertion step for `sortStrings` (Python `sorted`, ascending by
code-point order). -/
def insertSorted (x : String) : List String → List String
  | [] => [x]
  | y :: ys => if strLt x y then x :: y :: ys else y :: insertSorted x ys

/-- Python `sorted` on a list of strings. -/
def sortStrings (l : List String) : List String := l.foldr insertSorted []

/-! ### Upload validation (`app.py` lines 143–167) -/

/-- The fixed extension allow-list `audio_extensions` of `process_audio`. -/
def audio_extensions : List String :=
  [".wav", ".mp3", ".m4a", ".flac", ".ogg", ".aac", ".wma", ".opus", ".mp4", ".m4v"]

/-- `content_type and content_type.startswith('audio/')` — Python truthiness
makes both `None` and the empty string fail the first conjunct. -/
def is_audio_content_type : Option String → Bool
  | none => false
  | some s => if s = "" then false else startsWithAudio s

/-- Outcome of the inline validation block: either control falls through, or
an `HTTPException(status_code, detail)` is raised. -/
inductive ValidationResult where
  | accepted
  | rejected (status : Nat) (detail : String)
deriving DecidableEq

/-- `f"... {content_type or 'unknown'} ..."` — Python `or` yields the
fallback for `None` and for the empty string. -/
def contentTypeOrUnknown : Option String → String
  | none => "unknown"
  | some s => if s = "" then "unknown" else s

/-- Detail string of the extension-fallback rejection (line 160). -/
def fallbackDetail (content_type : Option String) : String :=
  "Invalid file type: " ++ contentTypeOrUnknown content_type ++
    ". Expected audio file (supported extensions: " ++
    String.intercalate ", " (sortStrings audio_extensions) ++ ")."

/-- Detail string of the explicit non-audio rejection (line 166). -/
def explicitDetail (content_type : String) : String :=
  "Invalid file type: " ++ content_type ++ ". Expected audio file."

/-- The validation block of `process_audio` (lines 143–167): declared-type
check first, extension fallback only for missing or generic declared types,
unconditional rejection for any other declared type. -/
def validateUpload (content_type : Option String) (filename : Option String) :
    ValidationResult :=
  if is_audio_content_type content_type then .accepted
  else if content_type = none ∨ content_type = some "application/octet-stream" then
    let fname := filename.getD ""
    let file_ext := lowerStr (splitext_ext fname)
    if file_ext ∈ audio_extensions then .accepted
    else .rejected 400 (fallbackDetail content_type)
  else
    .rejected 400 (explicitDetail (content_type.getD ""))

/-! ### Result normalization (`app.py` lines 186–213) -/

/-- One raw `(turn, speaker)` pair yielded by
`diarization.speaker_diarization`.  `start`/`end` are the engine's
timestamps, modelled as rationals. -/
structure RawTurn where
  start : ℚ
  «end» : ℚ
  speaker : String
deriving DecidableEq

/-- The `SpeakerSegment` response model. -/
structure SpeakerSegment where
  speaker : String
  start : ℚ
  «end» : ℚ
  duration : ℚ
deriving DecidableEq

/-- The `DiarizationResponse` response model. -/
structure DiarizationResponse where
  success : Bool
  segments : List SpeakerSegment
  total_speakers : Nat
  total_duration : ℚ
  message : Option String
deriving DecidableEq

/-- The segment dict built for one raw turn (lines 191–200):
`duration = end - start`. -/
def segOfTurn (t : RawTurn) : SpeakerSegment :=
  { speaker := t.speaker, start := t.start, «end» := t.«end»,
    duration := t.«end» - t.start }

/-- The three accumulators of the extraction loop: `segments`, `speakers`
and `total_duration`. -/
structure NormState where
  segments : List SpeakerSegment
  speakers : Finset String
  total_duration : ℚ

/-- One iteration of the extraction loop (lines 190–203): append the
segment, add the speaker to the set, take `max(total_duration, end)`. -/
def normStep (st : NormState) (t : RawTurn) : NormState :=
  { segments := st.segments ++ [segOfTurn t],
    speakers := insert t.speaker st.speakers,
    total_duration := max st.total_duration t.«end» }

/-- The full normalization (lines 186–213): run the loop from empty
accumulators and build the `DiarizationResponse`. -/
def processTurns (turns : List RawTurn) : DiarizationResponse :=
  let st := turns.foldl normStep { segments := [], speakers := ∅, total_duration := 0 }
  { success := true,
    segments := st.segments,
    total_speakers := st.speakers.card,
    total_duration := st.total_duration,
    message := some ("Successfully processed " ++ toString st.segments.length ++ " segments") }

/-! ### The request handler (`app.py` lines 129–227)

The handler's three external effects are staging the upload into a
temporary file, calling the pipeline, and removing the temporary file.
A `World` fixes the outcome of each effect; the handler is then a pure
function recording the client-visible response together with the
observable effect trace (which temp file was created, the engine
invocations with their speaker-count constraints, whether removal was
attempted / failed-and-logged, and whether the file is still on disk at
exit). -/

/-- Outcome of `tempfile.NamedTemporaryFile` + `tmp_file.write` (lines
174–178): the file is created and written, creation itself raises (no file
exists, `temp_file` stays `None`), or the write raises after creation. -/
inductive StageOutcome where
  | staged (path : String)
  | createFail (msg : String)
  | writeFail (path : String) (msg : String)
deriving DecidableEq

/-- Outcome of the `pipeline(temp_file, ...)` call (line 183). -/
inductive EngineOutcome where
  | turns (ts : List RawTurn)
  | engineRaise (msg : String)
deriving DecidableEq

/-- Outcome of `os.remove(temp_file)` (line 225). -/
inductive RemoveOutcome where
  | removed
  | removeFail (msg : String)
deriving DecidableEq

/-- Whether removal succeeds in this world. -/
def RemoveOutcome.isOk : RemoveOutcome → Bool
  | .removed => true
  | .removeFail _ => false

/-- Outcomes of the three external effects during one request. -/
structure World where
  stage : StageOutcome
  engine : EngineOutcome
  remove : RemoveOutcome
deriving DecidableEq

/-- The upload's client-declared metadata (`audio.content_type`,
`audio.filename`). -/
structure Upload where
  content_type : Option String
  filename : Option String
deriving DecidableEq

/-- The speaker-count keyword arguments of the pipeline call. -/
structure SpeakerConstraint where
  num_speakers : Nat
  min_speakers : Nat
  max_speakers : Nat
deriving DecidableEq

/-- Client-visible result: a 200 with a `DiarizationResponse` body, or an
`HTTPException` with a status code and detail. -/
inductive Response where
  | success (body : DiarizationResponse)
  | failure (status : Nat) (detail : String)
deriving DecidableEq

/-- The handler's client-visible response plus its observable effect
trace. -/
structure HandlerResult where
  response : Response
  tempCreated : Option String
  engineCalls : List SpeakerConstraint
  removeAttempted : Bool
  removeWarningLogged : Bool
  tempRemaining : Bool
deriving DecidableEq

/-- The `finally` block (lines 221–227): if a temp file was created (it
then exists on disk), try to remove it; a removal failure is logged as a
warning and swallowed — the response passed in is returned unchanged. -/
def finalizeRequest (temp : Option String) (calls : List SpeakerConstraint)
    (resp : Response) (w : World) : HandlerResult :=
  match temp with
  | none => ⟨resp, none, calls, false, false, false⟩
  | some p =>
    match w.remove with
    | .removed => ⟨resp, some p, calls, true, false, false⟩
    | .removeFail _ => ⟨resp, some p, calls, true, true, true⟩

/-- The f-string of line 219 wrapping the original exception message. -/
def engineErrorDetail (msg : String) : String := "Error processing audio: " ++ msg

/-- The `/process` handler `process_audio` (lines 129–227): pipeline
presence check, validation, then the `try`/`except`/`finally` block
staging the file, invoking the pipeline with the fixed
`num_speakers=2, min_speakers=2, max_speakers=2` constraint and
normalizing the result; any exception inside the block becomes a uniform
500 carrying the original message. -/
def process_audio (pipelineLoaded : Bool) (audio : Upload) (w : World) :
    HandlerResult :=
  if !pipelineLoaded then
    ⟨.failure 503 "Pipeline not loaded. Please check server logs.", none, [], false, false, false⟩
  else
    match validateUpload audio.content_type audio.filename with
    | .rejected s d => ⟨.failure s d, none, [], false, false, false⟩
    | .accepted =>
      match w.stage with
      | .createFail msg =>
        finalizeRequest none [] (.failure 500 (engineErrorDetail msg)) w
      | .writeFail p msg =>
        finalizeRequest (some p) [] (.failure 500 (engineErrorDetail msg)) w
      | .staged p =>
        match w.engine with
        | .engineRaise msg =>
          finalizeRequest (some p) [⟨2, 2, 2⟩] (.failure 500 (engineErrorDetail msg)) w
        | .turns ts =>
          finalizeRequest (some p) [⟨2, 2, 2⟩] (.success (processTurns ts)) w

/-- The `/health` response body (lines 120–127). -/
structure HealthResponse where
  status : String
  service : String
  pipeline_loaded : Bool
deriving DecidableEq

/-- The `health_check` handler. -/
def health_check (pipelineLoaded : Bool) : HealthResponse :=
  { status := "healthy", service := "pyannote-audio", pipeline_loaded := pipelineLoaded }

/-! ### Pipeline startup and hyperparameter overrides (`app.py` lines 53–99)

`pipeline.parameters(instantiated=True)` returns the pipeline's parameter
schema as a dict mapping each top-level stage name (`"clustering"`,
`"segmentation"`, …) to a dict of named numeric parameters; it is modelled
as an association list of association lists (first binding wins, as in a
Python dict without duplicate keys).  Updates are guarded by membership
tests in the source, so the model's update replaces an existing binding
and leaves the map unchanged when the key is absent. -/

/-- Python `d.get(key)` / `key in d` lookup on an association list. -/
def alookup {α : Type} : List (String × α) → String → Option α
  | [], _ => none
  | (k, v) :: rest, key => if k = key then some v else alookup rest key

/-- Python `d[key] = v` for a key already present: replace the binding
(no-op when the key is absent — the source only assigns under a
membership guard). -/
def aupdate {α : Type} : List (String × α) → String → α → List (String × α)
  | [], _, _ => []
  | (k, v) :: rest, key, nv =>
    if k = key then (k, nv) :: rest else (k, v) :: aupdate rest key nv

/-- The nested parameter dict returned by
`pipeline.parameters(instantiated=True)`. -/
abbrev Hparams : Type := List (String × List (String × ℚ))

/-- The module-level tunables (`CLUSTERING_THRESHOLD`, `SEG_*`), each
`Optional[float]`. -/
structure Tunables where
  CLUSTERING_THRESHOLD : Option ℚ
  SEG_MIN_DURATION_ON : Option ℚ
  SEG_MIN_DURATION_OFF : Option ℚ
  SEG_THRESHOLD : Option ℚ
  SEG_ONSET : Option ℚ
  SEG_OFFSET : Option ℚ

/-- The values assigned at lines 35–42 of the source. -/
def moduleTunables : Tunables :=
  { CLUSTERING_THRESHOLD := some (80 / 100),
    SEG_MIN_DURATION_ON := some 0,
    SEG_MIN_DURATION_OFF := some 0,
    SEG_THRESHOLD := none,
    SEG_ONSET := some (1 / 10),
    SEG_OFFSET := some (1 / 10) }

/-- The `any_tunable` disjunction (lines 71–78). -/
def any_tunable (t : Tunables) : Bool :=
  t.CLUSTERING_THRESHOLD.isSome || t.SEG_MIN_DURATION_ON.isSome ||
    t.SEG_MIN_DURATION_OFF.isSome || t.SEG_THRESHOLD.isSome ||
    t.SEG_ONSET.isSome || t.SEG_OFFSET.isSome

/-- The `(const, key)` pairs iterated at lines 86–92. -/
def segPairs (t : Tunables) : List (Option ℚ × String) :=
  [(t.SEG_MIN_DURATION_ON, "min_duration_on"),
   (t.SEG_MIN_DURATION_OFF, "min_duration_off"),
   (t.SEG_THRESHOLD, "threshold"),
   (t.SEG_ONSET, "onset"),
   (t.SEG_OFFSET, "offset")]

/-- One iteration of the loop at lines 92–95:
`if const is not None and key in seg: seg[key] = const`. -/
def segStep (s : List (String × ℚ)) (p : Option ℚ × String) : List (String × ℚ) :=
  match p.1 with
  | some v => if (alookup s p.2).isSome then aupdate s p.2 v else s
  | none => s

/-- Lines 81–83: `if CLUSTERING_THRESHOLD is not None and "clustering" in
hparams and "threshold" in hparams["clustering"]: hparams["clustering"]["threshold"] = CLUSTERING_THRESHOLD`. -/
def clusterStep (t : Tunables) (hparams : Hparams) : Hparams :=
  match t.CLUSTERING_THRESHOLD, alookup hparams "clustering" with
  | some v, some d =>
    if (alookup d "threshold").isSome then
      aupdate hparams "clustering" (aupdate d "threshold" v)
    else hparams
  | _, _ => hparams

/-- The override merge of lines 80–95: set `clustering.threshold` when the
override is specified and both keys exist, then apply each specified
segmentation override whose key exists in the `segmentation` sub-dict
(lines 84–95; in Python the sub-dict is mutated in place, modelled here by
writing the merged sub-dict back). -/
def applyTunables (t : Tunables) (hparams : Hparams) : Hparams :=
  match alookup (clusterStep t hparams) "segmentation" with
  | some seg =>
    aupdate (clusterStep t hparams) "segmentation" ((segPairs t).foldl segStep seg)
  | none => clusterStep t hparams

/-- The startup hook `load_pipeline` (lines 53–99), abstracted over the
outcome of `Pipeline.from_pretrained` (an `Except`: loading may raise).
On success, when any tunable is specified the merged parameters are passed
to `pipeline.instantiate`; the result is the pipeline's final instantiated
parameter set. -/
def load_pipeline (loaded : Except String Hparams) (t : Tunables) :
    Except String Hparams :=
  match loaded with
  | .error e => .error e
  | .ok h => .ok (if any_tunable t then applyTunables t h else h)

/-- Lookup of `clustering.threshold` in a parameter set. -/
def clusteringThreshold (h : Hparams) : Option ℚ :=
  match alookup h "clustering" with
  | some d => alookup d "threshold"
  | none => none

/-- Lookup of a `segmentation` parameter in a parameter set. -/
def segParam (h : Hparams) (key : String) : Option ℚ :=
  match alookup h "segmentation" with
  | some d => alookup d key
  | none => none

/-- The worked normalization example of the specification:
raw turns `[(0.0, 2.0, "A"), (1.5, 3.0, "B"), (3.0, 5.0, "A")]`. -/
def exampleTurns : List RawTurn :=
  [⟨0, 2, "A"⟩, ⟨3 / 2, 3, "B"⟩, ⟨3, 5, "A"⟩]

/-! ### Helper lemmas -/

/-- The cleanup block hands the computed response back unchanged. -/
@[simp] theorem finalizeRequest_response (temp : Option String)
    (calls : List SpeakerConstraint) (resp : Response) (w : World) :
    (finalizeRequest temp calls resp w).response = resp := by
  cases temp <;> [rfl; (rename_i p; cases hr : w.remove <;> simp [finalizeRequest, hr])]

/-- The cleanup block does not add engine invocations. -/
@[simp] theorem finalizeRequest_engineCalls (temp : Option String)
    (calls : List SpeakerConstraint) (resp : Response) (w : World) :
    (finalizeRequest temp calls resp w).engineCalls = calls := by
  cases temp <;> [rfl; (rename_i p; cases hr : w.remove <;> simp [finalizeRequest, hr])]

/-- The cleanup block reports exactly the temp file it was given. -/
@[simp] theorem finalizeRequest_tempCreated (temp : Option String)
    (calls : List SpeakerConstraint) (resp : Response) (w : World) :
    (finalizeRequest temp calls resp w).tempCreated = temp := by
  cases temp <;> [rfl; (rename_i p; cases hr : w.remove <;> simp [finalizeRequest, hr])]

/-- Removal is attempted exactly when a temp file was created. -/
@[simp] theorem finalizeRequest_removeAttempted (temp : Option String)
    (calls : List SpeakerConstraint) (resp : Response) (w : World) :
    (finalizeRequest temp calls resp w).removeAttempted = temp.isSome := by
  cases temp <;> [rfl; (rename_i p; cases hr : w.remove <;> simp [finalizeRequest, hr])]

/-- A removal-failure warning is logged exactly when a temp file exists and
its removal fails. -/
@[simp] theorem finalizeRequest_removeWarningLogged (temp : Option String)
    (calls : List SpeakerConstraint) (resp : Response) (w : World) :
    (finalizeRequest temp calls resp w).removeWarningLogged =
      (temp.isSome && !w.remove.isOk) := by
  cases temp <;> [rfl; (rename_i p; cases hr : w.remove <;> simp [finalizeRequest, hr, RemoveOutcome.isOk])]

/-- The temp file outlives the request exactly when it was created and its
removal fails. -/
@[simp] theorem finalizeRequest_tempRemaining (temp : Option String)
    (calls : List SpeakerConstraint) (resp : Response) (w : World) :
    (finalizeRequest temp calls resp w).tempRemaining =
      (temp.isSome && !w.remove.isOk) := by
  cases temp <;> [rfl; (rename_i p; cases hr : w.remove <;> simp [finalizeRequest, hr, RemoveOutcome.isOk])]

/-- The extraction loop appends one segment per raw turn, in order. -/
theorem foldl_normStep_segments (ts : List RawTurn) (init : NormState) :
    (ts.foldl normStep init).segments = init.segments ++ ts.map segOfTurn := by
  induction ts generalizing init with
  | nil => simp
  | cons t ts ih => simp [ih, normStep]

/-- The extraction loop accumulates exactly the set of speaker labels. -/
theorem foldl_normStep_speakers (ts : List RawTurn) (init : NormState) :
    (ts.foldl normStep init).speakers =
      init.speakers ∪ (ts.map RawTurn.speaker).toFinset := by
  induction ts generalizing init with
  | nil => simp
  | cons t ts ih =>
    simp [ih, normStep, Finset.insert_union, Finset.union_insert]

/-- The extraction loop folds `max` over the end times. -/
theorem foldl_normStep_duration (ts : List RawTurn) (init : NormState) :
    (ts.foldl normStep init).total_duration =
      (ts.map RawTurn.«end»).foldl max init.total_duration := by
  induction ts generalizing init with
  | nil => simp
  | cons t ts ih => simp [ih, normStep]

/-- A `max`-fold dominates its seed. -/
theorem le_foldl_max (l : List ℚ) (a : ℚ) : a ≤ l.foldl max a := by
  induction l generalizing a with
  | nil => exact le_refl a
  | cons x xs ih => exact le_trans (le_max_left a x) (ih (max a x))

/-- A `max`-fold dominates every list element. -/
theorem mem_le_foldl_max (l : List ℚ) (a : ℚ) (x : ℚ) (hx : x ∈ l) :
    x ≤ l.foldl max a := by
  induction l generalizing a with
  | nil => cases hx
  | cons y ys ih =>
    rcases List.mem_cons.mp hx with h | h
    · subst h; exact le_trans (le_max_right a x) (le_foldl_max ys (max a x))
    · exact ih (max a y) h

/-- A `max`-fold returns its seed or a list element. -/
theorem foldl_max_eq_or_mem (l : List ℚ) (a : ℚ) :
    l.foldl max a = a ∨ l.foldl max a ∈ l := by
  induction l generalizing a with
  | nil => exact Or.inl rfl
  | cons x xs ih =>
    rcases ih (max a x) with h | h
    · rcases max_choice a x with hm | hm
      · exact Or.inl (by simp [List.foldl_cons] at h ⊢; rw [h, hm])
      · exact Or.inr (by simp [List.foldl_cons] at h ⊢; exact Or.inl (h.trans hm))
    · exact Or.inr (List.mem_cons_of_mem x h)

/-! ### Claim theorems -/

/-- C3: for an upload whose declared media type is absent or
`application/octet-stream`, validation accepts exactly when the filename's
extension, lowercased, is in the fixed allow-list, and otherwise rejects
with a 400 whose detail names the rejected type (`unknown` for an absent
type) and the sorted allowed extensions; `video.MP4` with no declared type
is accepted, `notes.txt` with no declared type is rejected. -/
theorem c3_extension_fallback (fn : Option String) :
    (validateUpload none fn =
      if lowerStr (splitext_ext (fn.getD "")) ∈ audio_extensions then .accepted
      else .rejected 400 (fallbackDetail none)) ∧
    (validateUpload (some "application/octet-stream") fn =
      if lowerStr (splitext_ext (fn.getD "")) ∈ audio_extensions then .accepted
      else .rejected 400 (fallbackDetail (some "application/octet-stream"))) ∧
    fallbackDetail none =
      "Invalid file type: unknown. Expected audio file (supported extensions: .aac, .flac, .m4a, .m4v, .mp3, .mp4, .ogg, .opus, .wav, .wma)." ∧
    fallbackDetail (some "application/octet-stream") =
      "Invalid file type: application/octet-stream. Expected audio file (supported extensions: .aac, .flac, .m4a, .m4v, .mp3, .mp4, .ogg, .opus, .wav, .wma)." ∧
    validateUpload none (some "video.MP4") = .accepted ∧
    validateUpload none (some "notes.txt") = .rejected 400 (fallbackDetail none) := by
  refine ⟨?_, ?_, by decide, by decide, by decide, by decide⟩
  · simp [validateUpload, is_audio_content_type]
  · have hna : is_audio_content_type (some "application/octet-stream") = false := by decide
    simp [validateUpload, hna]

/-- C4: a present declared media type starting with `audio/` is accepted
regardless of extension; any other present declared type that is not the
generic `application/octet-stream` is rejected with a 400 regardless of
extension, even for `speech.wav` with `text/plain`. -/
theorem c4_declared_type (s : String) (fn : Option String) :
    (startsWithAudio s = true → validateUpload (some s) fn = .accepted) ∧
    (startsWithAudio s = false → s ≠ "application/octet-stream" →
      validateUpload (some s) fn = .rejected 400 (explicitDetail s)) ∧
    validateUpload (some "text/plain") (some "speech.wav") =
      .rejected 400 "Invalid file type: text/plain. Expected audio file." ∧
    validateUpload (some "audio/mpeg") (some "notes.txt") = .accepted := by
  refine ⟨?_, ?_, by decide, by decide⟩
  · intro h
    have hs : ¬s = "" := by
      intro e
      rw [e] at h
      exact absurd h (by decide)
    simp [validateUpload, is_audio_content_type, hs, h]
  · intro h hn
    by_cases hs : s = ""
    · subst hs
      have h2 : ("" : String) ≠ "application/octet-stream" := by decide
      simp [validateUpload, is_audio_content_type, h2]
    · simp [validateUpload, is_audio_content_type, hs, h, hn]

/-- Witness for C4 at a concrete audio-typed upload with a non-audio
extension. -/
theorem c4_witness :
    startsWithAudio "audio/mpeg" = true ∧
    validateUpload (some "audio/mpeg") (some "notes.txt") = .accepted :=
  ⟨by decide, (c4_declared_type "audio/mpeg" (some "notes.txt")).1 (by decide)⟩

/-- C10: an upload with declared media type equal to the empty string is
rejected with a 400 regardless of filename extension — the empty string is
not treated as an absent type, so the extension fallback never runs; in
particular `speech.wav` with declared type `""` is rejected. -/
theorem c10_empty_declared_type (fn : Option String) :
    validateUpload (some "") fn =
      .rejected 400 "Invalid file type: . Expected audio file." ∧
    validateUpload (some "") (some "speech.wav") =
      .rejected 400 "Invalid file type: . Expected audio file." := by
  refine ⟨?_, by decide⟩
  have h2 : ("" : String) ≠ "application/octet-stream" := by decide
  have h3 : validateUpload (some "") fn = .rejected 400 (explicitDetail "") := by
    simp [validateUpload, is_audio_content_type, h2]
  rw [h3]
  decide

/-- C5: when the pipeline handle is not initialized, every `/process`
request — whatever the upload metadata and whatever the world — returns a
503 with no staging, no engine invocation, no file I/O; and `/health`
reports `pipeline_loaded: false`. -/
theorem c5_service_unavailable (u : Upload) (w : World) :
    process_audio false u w =
      { response := .failure 503 "Pipeline not loaded. Please check server logs.",
        tempCreated := none, engineCalls := [], removeAttempted := false,
        removeWarningLogged := false, tempRemaining := false } ∧
    (health_check false).pipeline_loaded = false :=
  ⟨rfl, rfl⟩

/-- C1: on every exit path of `/process`, if a staged temporary file was
created then its removal is attempted before the handler terminates; when
removal succeeds the file is gone, when removal fails a warning is logged;
and the removal outcome never changes the client-visible response. -/
theorem c1_staged_file_cleanup (pl : Bool) (u : Upload) (w : World)
    (rem : RemoveOutcome) :
    ((process_audio pl u w).removeAttempted =
      (process_audio pl u w).tempCreated.isSome) ∧
    ((process_audio pl u w).tempRemaining =
      ((process_audio pl u w).tempCreated.isSome && !w.remove.isOk)) ∧
    ((process_audio pl u w).removeWarningLogged =
      ((process_audio pl u w).tempCreated.isSome && !w.remove.isOk)) ∧
    ((process_audio pl u { w with remove := rem }).response =
      (process_audio pl u w).response) := by
  obtain ⟨st, eng, rm⟩ := w
  cases pl
  · exact ⟨rfl, rfl, rfl, rfl⟩
  · cases hv : validateUpload u.content_type u.filename <;>
      cases st <;> cases eng <;>
      simp [process_audio, hv]

/-- C9: whenever a request reaches diarization invocation the engine is
called exactly once, always with `num_speakers=2, min_speakers=2,
max_speakers=2`, independent of the request input; requests that do not
reach invocation make no engine call. -/
theorem c9_fixed_speaker_constraint (pl : Bool) (u : Upload) (w : World) :
    ((process_audio pl u w).engineCalls = [] ∨
      (process_audio pl u w).engineCalls = [⟨2, 2, 2⟩]) ∧
    (process_audio true ⟨some "audio/wav", some "a.wav"⟩
        ⟨.staged "/tmp/x", .turns [], .removed⟩).engineCalls = [⟨2, 2, 2⟩] ∧
    (process_audio true ⟨some "audio/wav", some "a.wav"⟩
        ⟨.staged "/tmp/x", .engineRaise "bad codec", .removed⟩).engineCalls =
      [⟨2, 2, 2⟩] := by
  refine ⟨?_, by decide, by decide⟩
  obtain ⟨st, eng, rm⟩ := w
  cases pl
  · exact Or.inl rfl
  · cases hv : validateUpload u.content_type u.filename <;>
      cases st <;> cases eng <;>
      simp [process_audio, hv]

/-- C7: under an accepted upload, every exception inside staging or
invocation produces the uniform 500 response whose detail wraps the
original exception message, and the engine is invoked at most once per
request. -/
theorem c7_uniform_engine_failure (u : Upload) (w : World)
    (hv : validateUpload u.content_type u.filename = .accepted) :
    ((process_audio true u w).engineCalls.length ≤ 1) ∧
    (∀ msg, w.stage = .createFail msg →
      (process_audio true u w).response = .failure 500 (engineErrorDetail msg)) ∧
    (∀ p msg, w.stage = .writeFail p msg →
      (process_audio true u w).response = .failure 500 (engineErrorDetail msg)) ∧
    (∀ p msg, w.stage = .staged p → w.engine = .engineRaise msg →
      (process_audio true u w).response = .failure 500 (engineErrorDetail msg)) := by
  obtain ⟨st, eng, rm⟩ := w
  cases st <;> cases eng <;> simp [process_audio, hv]

/-- Witness for C7 at a concrete request whose temp-file creation raises
`disk full`. -/
theorem c7_witness :
    validateUpload (some "audio/wav") (some "a.wav") = .accepted ∧
    (process_audio true ⟨some "audio/wav", some "a.wav"⟩
        ⟨.createFail "disk full", .turns [], .removed⟩).response =
      .failure 500 (engineErrorDetail "disk full") :=
  ⟨by decide,
   (c7_uniform_engine_failure ⟨some "audio/wav", some "a.wav"⟩
      ⟨.createFail "disk full", .turns [], .removed⟩ (by decide)).2.1
     "disk full" rfl⟩

/-- C8: when the engine returns zero speaker turns the request succeeds:
`success=true`, `total_speakers=0`, `total_duration=0.0`, empty segment
list. -/
theorem c8_zero_turns (u : Upload) (p : String) (rm : RemoveOutcome)
    (hv : validateUpload u.content_type u.filename = .accepted) :
    (process_audio true u ⟨.staged p, .turns [], rm⟩).response =
      .success { success := true, segments := [], total_speakers := 0,
                 total_duration := 0,
                 message := some "Successfully processed 0 segments" } := by
  have h1 : (process_audio true u ⟨.staged p, .turns [], rm⟩).response =
      .success (processTurns []) := by
    simp [process_audio, hv]
  rw [h1]
  decide

/-- Witness for C8 at a concrete accepted request. -/
theorem c8_witness :
    validateUpload (some "audio/wav") (some "a.wav") = .accepted ∧
    (process_audio true ⟨some "audio/wav", some "a.wav"⟩
        ⟨.staged "/tmp/x", .turns [], .removed⟩).response =
      .success { success := true, segments := [], total_speakers := 0,
                 total_duration := 0,
                 message := some "Successfully processed 0 segments" } :=
  ⟨by decide,
   c8_zero_turns ⟨some "audio/wav", some "a.wav"⟩ "/tmp/x" .removed (by decide)⟩

/-- C2: for every non-empty sequence of raw engine turns (engine
timestamps are non-negative), the normalized response has one segment per
turn in emission order with `duration = end - start`, `total_speakers`
equal to the number of distinct labels, and `total_duration` equal to the
maximum end time (it occurs among the end times and dominates them all);
on the worked example the result has 2 speakers, total duration 5 and
ordered durations `[2, 3/2, 2]`. -/
theorem c2_normalization (ts : List RawTurn) (hne : ts ≠ [])
    (hnn : ∀ t ∈ ts, 0 ≤ t.«end») :
    ((processTurns ts).segments = ts.map segOfTurn) ∧
    ((processTurns ts).total_speakers = (ts.map RawTurn.speaker).toFinset.card) ∧
    ((processTurns ts).total_duration ∈ ts.map RawTurn.«end») ∧
    (∀ t ∈ ts, t.«end» ≤ (processTurns ts).total_duration) ∧
    (processTurns exampleTurns).total_speakers = 2 ∧
    (processTurns exampleTurns).total_duration = 5 ∧
    ((processTurns exampleTurns).segments.map SpeakerSegment.duration =
      [2, 3 / 2, 2]) := by
  have hd : (processTurns ts).total_duration =
      (ts.map RawTurn.«end»).foldl max 0 := by
    simp [processTurns, foldl_normStep_duration]
  have hex1 : (processTurns exampleTurns).total_speakers = 2 := by
    simp [processTurns, foldl_normStep_speakers, exampleTurns]
    decide
  have hex2 : (processTurns exampleTurns).total_duration = 5 := by
    simp [processTurns, exampleTurns, normStep, max_def]
    norm_num
  have hex3 : (processTurns exampleTurns).segments.map SpeakerSegment.duration =
      [2, 3 / 2, 2] := by
    simp [processTurns, exampleTurns, normStep, segOfTurn]
    norm_num
  refine ⟨?_, ?_, ?_, ?_, hex1, hex2, hex3⟩
  · simp [processTurns, foldl_normStep_segments]
  · simp [processTurns, foldl_normStep_speakers]
  · rw [hd]
    rcases foldl_max_eq_or_mem (ts.map RawTurn.«end») 0 with h | h
    · cases ts with
      | nil => exact absurd rfl hne
      | cons t ts' =>
        have h1 : t.«end» ≤ (List.map RawTurn.«end» (t :: ts')).foldl max 0 :=
          mem_le_foldl_max _ _ _ (by simp)
        rw [h] at h1
        have h2 : 0 ≤ t.«end» := hnn t (List.mem_cons_self t ts')
        have h3 : t.«end» = 0 := le_antisymm h1 h2
        rw [h]
        exact List.mem_map.mpr ⟨t, List.mem_cons_self t ts', h3⟩
    · exact h
  · intro t ht
    rw [hd]
    exact mem_le_foldl_max _ _ _ (List.mem_map_of_mem RawTurn.«end» ht)

/-- Witness for C2 at the specification's worked example. -/
theorem c2_witness :
    exampleTurns ≠ [] ∧
    (processTurns exampleTurns).segments = exampleTurns.map segOfTurn ∧
    (processTurns exampleTurns).total_duration ∈
      exampleTurns.map RawTurn.«end» :=
  ⟨by decide,
   (c2_normalization exampleTurns (by decide) (by norm_num [exampleTurns])).1,
   (c2_normalization exampleTurns (by decide) (by norm_num [exampleTurns])).2.2.1⟩

/-- Updating a present key replaces its binding; updating an absent key is
a no-op, so the lookup stays `none`. -/
theorem alookup_aupdate_self {α : Type} (l : List (String × α)) (k : String)
    (v : α) :
    alookup (aupdate l k v) k =
      if (alookup l k).isSome then some v else none := by
  induction l with
  | nil => simp [alookup, aupdate]
  | cons hd rest ih =>
    obtain ⟨k', v'⟩ := hd
    by_cases h : k' = k
    · simp [alookup, aupdate, h]
    · simp [alookup, aupdate, h, ih]

/-- Updating one key leaves lookups of other keys unchanged. -/
theorem alookup_aupdate_ne {α : Type} (l : List (String × α)) (k k' : String)
    (v : α) (h : k' ≠ k) :
    alookup (aupdate l k v) k' = alookup l k' := by
  induction l with
  | nil => simp [aupdate]
  | cons hd rest ih =>
    obtain ⟨a, b⟩ := hd
    by_cases ha : a = k
    · subst ha
      have h2 : a ≠ k' := fun e => h e.symm
      simp [alookup, aupdate, h2]
    · simp [alookup, aupdate, ha, ih]

/-- One segmentation-override iteration leaves other keys unchanged. -/
theorem segStep_alookup_ne (s : List (String × ℚ)) (c : Option ℚ)
    (key k : String) (h : k ≠ key) :
    alookup (segStep s (c, key)) k = alookup s k := by
  cases c with
  | none => rfl
  | some v =>
    simp only [segStep]
    split
    · exact alookup_aupdate_ne s key k v h
    · rfl

/-- One segmentation-override iteration sets its key exactly when the
override is specified and the key is present. -/
theorem segStep_alookup_self (s : List (String × ℚ)) (c : Option ℚ)
    (key : String) :
    alookup (segStep s (c, key)) key =
      if c.isSome && (alookup s key).isSome then c else alookup s key := by
  cases c with
  | none => simp [segStep]
  | some v =>
    simp only [segStep, Option.isSome_some, Bool.true_and]
    by_cases h : (alookup s key).isSome
    · rw [if_pos h, if_pos h, alookup_aupdate_self, if_pos h]
    · rw [if_neg h, if_neg h]

/-- The clustering step only touches the `clustering` entry. -/
theorem clusterStep_alookup_ne (t : Tunables) (h : Hparams) (k : String)
    (hk : k ≠ "clustering") :
    alookup (clusterStep t h) k = alookup h k := by
  cases hct : t.CLUSTERING_THRESHOLD with
  | none =>
    have : clusterStep t h = h := by
      unfold clusterStep
      rw [hct]
    rw [this]
  | some v =>
    cases hc : alookup h "clustering" with
    | none =>
      have : clusterStep t h = h := by
        unfold clusterStep
        rw [hct, hc]
      rw [this]
    | some d =>
      have hred : clusterStep t h =
          if (alookup d "threshold").isSome = true
          then aupdate h "clustering" (aupdate d "threshold" v) else h := by
        unfold clusterStep
        rw [hct, hc]
      rw [hred]
      by_cases hth : (alookup d "threshold").isSome
      · rw [if_pos hth]
        exact alookup_aupdate_ne h "clustering" k _ hk
      · rw [if_neg hth]

/-- The clustering step sets `clustering.threshold` exactly when the
override is specified and the key path exists. -/
theorem clusterStep_threshold (t : Tunables) (h : Hparams) :
    clusteringThreshold (clusterStep t h) =
      if t.CLUSTERING_THRESHOLD.isSome && (clusteringThreshold h).isSome
      then t.CLUSTERING_THRESHOLD else clusteringThreshold h := by
  cases hct : t.CLUSTERING_THRESHOLD with
  | none =>
    have : clusterStep t h = h := by
      unfold clusterStep
      rw [hct]
    rw [this]
    simp
  | some v =>
    cases hc : alookup h "clustering" with
    | none =>
      have h0 : clusterStep t h = h := by
        unfold clusterStep
        rw [hct, hc]
      have h1 : clusteringThreshold h = none := by
        unfold clusteringThreshold
        rw [hc]
      rw [h0, h1]
      simp
    | some d =>
      have h1 : clusteringThreshold h = alookup d "threshold" := by
        unfold clusteringThreshold
        rw [hc]
      have hred : clusterStep t h =
          if (alookup d "threshold").isSome = true
          then aupdate h "clustering" (aupdate d "threshold" v) else h := by
        unfold clusterStep
        rw [hct, hc]
      by_cases hth : (alookup d "threshold").isSome
      · have h2 : clusteringThreshold (clusterStep t h) = some v := by
          rw [hred, if_pos hth]
          unfold clusteringThreshold
          rw [alookup_aupdate_self h "clustering" (aupdate d "threshold" v), hc]
          simp [alookup_aupdate_self, hth]
        rw [h2, h1]
        simp [hth]
      · rw [hred, if_neg hth, h1]
        simp [hth]

/-- Per-key characterization of the segmentation-override loop. -/
theorem segPairs_foldl_lookup (t : Tunables) (seg : List (String × ℚ)) :
    (alookup ((segPairs t).foldl segStep seg) "min_duration_on" =
      if t.SEG_MIN_DURATION_ON.isSome && (alookup seg "min_duration_on").isSome
      then t.SEG_MIN_DURATION_ON else alookup seg "min_duration_on") ∧
    (alookup ((segPairs t).foldl segStep seg) "min_duration_off" =
      if t.SEG_MIN_DURATION_OFF.isSome && (alookup seg "min_duration_off").isSome
      then t.SEG_MIN_DURATION_OFF else alookup seg "min_duration_off") ∧
    (alookup ((segPairs t).foldl segStep seg) "threshold" =
      if t.SEG_THRESHOLD.isSome && (alookup seg "threshold").isSome
      then t.SEG_THRESHOLD else alookup seg "threshold") ∧
    (alookup ((segPairs t).foldl segStep seg) "onset" =
      if t.SEG_ONSET.isSome && (alookup seg "onset").isSome
      then t.SEG_ONSET else alookup seg "onset") ∧
    (alookup ((segPairs t).foldl segStep seg) "offset" =
      if t.SEG_OFFSET.isSome && (alookup seg "offset").isSome
      then t.SEG_OFFSET else alookup seg "offset") := by
  simp only [segPairs, List.foldl_cons, List.foldl_nil]
  refine ⟨?_, ?_, ?_, ?_, ?_⟩
  · rw [segStep_alookup_ne _ _ _ _ (by decide),
      segStep_alookup_ne _ _ _ _ (by decide),
      segStep_alookup_ne _ _ _ _ (by decide),
      segStep_alookup_ne _ _ _ _ (by decide),
      segStep_alookup_self]
  · rw [segStep_alookup_ne _ _ _ _ (by decide),
      segStep_alookup_ne _ _ _ _ (by decide),
      segStep_alookup_ne _ _ _ _ (by decide),
      segStep_alookup_self,
      segStep_alookup_ne _ _ _ _ (by decide)]
  · rw [segStep_alookup_ne _ _ _ _ (by decide),
      segStep_alookup_ne _ _ _ _ (by decide),
      segStep_alookup_self,
      segStep_alookup_ne _ _ _ _ (by decide),
      segStep_alookup_ne _ _ _ _ (by decide)]
  · rw [segStep_alookup_ne _ _ _ _ (by decide),
      segStep_alookup_self,
      segStep_alookup_ne _ _ _ _ (by decide),
      segStep_alookup_ne _ _ _ _ (by decide),
      segStep_alookup_ne _ _ _ _ (by decide)]
  · rw [segStep_alookup_self,
      segStep_alookup_ne _ _ _ _ (by decide),
      segStep_alookup_ne _ _ _ _ (by decide),
      segStep_alookup_ne _ _ _ _ (by decide),
      segStep_alookup_ne _ _ _ _ (by decide)]

/-- The full override merge sets `clustering.threshold` exactly when that
override is specified and the key path exists. -/
theorem clusteringThreshold_applyTunables (t : Tunables) (h : Hparams) :
    clusteringThreshold (applyTunables t h) =
      if t.CLUSTERING_THRESHOLD.isSome && (clusteringThreshold h).isSome
      then t.CLUSTERING_THRESHOLD else clusteringThreshold h := by
  cases hs : alookup (clusterStep t h) "segmentation" with
  | none =>
    have happ : applyTunables t h = clusterStep t h := by
      unfold applyTunables
      rw [hs]
    rw [happ, clusterStep_threshold]
  | some seg =>
    have happ : applyTunables t h =
        aupdate (clusterStep t h) "segmentation" ((segPairs t).foldl segStep seg) := by
      unfold applyTunables
      rw [hs]
    have h2 : clusteringThreshold (applyTunables t h) =
        clusteringThreshold (clusterStep t h) := by
      rw [happ]
      unfold clusteringThreshold
      rw [alookup_aupdate_ne _ _ _ _ (by decide)]
    rw [h2, clusterStep_threshold]

/-- The full override merge sets a segmentation key exactly when the
corresponding override is specified and the key is present, given the
per-key behaviour of the segmentation loop. -/
theorem segParam_applyTunables (t : Tunables) (h : Hparams) (c : Option ℚ)
    (k : String)
    (hin : ∀ seg, alookup ((segPairs t).foldl segStep seg) k =
      if c.isSome && (alookup seg k).isSome then c else alookup seg k) :
    segParam (applyTunables t h) k =
      if c.isSome && (segParam h k).isSome then c else segParam h k := by
  have hseg1 : alookup (clusterStep t h) "segmentation" = alookup h "segmentation" :=
    clusterStep_alookup_ne t h _ (by decide)
  cases hs : alookup (clusterStep t h) "segmentation" with
  | none =>
    have happ : applyTunables t h = clusterStep t h := by
      unfold applyTunables
      rw [hs]
    have h2 : segParam h k = none := by
      unfold segParam
      rw [← hseg1, hs]
    have h3 : segParam (clusterStep t h) k = none := by
      unfold segParam
      rw [hs]
    rw [happ, h3, h2]
    simp
  | some seg =>
    have happ : applyTunables t h =
        aupdate (clusterStep t h) "segmentation" ((segPairs t).foldl segStep seg) := by
      unfold applyTunables
      rw [hs]
    have h2 : segParam h k = alookup seg k := by
      unfold segParam
      rw [← hseg1, hs]
    have h3 : segParam (applyTunables t h) k =
        alookup ((segPairs t).foldl segStep seg) k := by
      rw [happ]
      unfold segParam
      rw [alookup_aupdate_self, hs]
      simp
    rw [h3, h2, hin seg]

/-- C6: for every override configuration and every instantiated parameter
set, the merge applies exactly those overrides whose target key exists
(the merged value is the override there, and the original lookup — in
particular `none` for an absent key — everywhere else, so absent targets
are skipped without error), and startup still succeeds, re-instantiating
the pipeline with the merged parameters whenever any override is
specified. -/
theorem c6_hyperparameter_overrides (t : Tunables) (h : Hparams) :
    (clusteringThreshold (applyTunables t h) =
      if t.CLUSTERING_THRESHOLD.isSome && (clusteringThreshold h).isSome
      then t.CLUSTERING_THRESHOLD else clusteringThreshold h) ∧
    (segParam (applyTunables t h) "min_duration_on" =
      if t.SEG_MIN_DURATION_ON.isSome && (segParam h "min_duration_on").isSome
      then t.SEG_MIN_DURATION_ON else segParam h "min_duration_on") ∧
    (segParam (applyTunables t h) "min_duration_off" =
      if t.SEG_MIN_DURATION_OFF.isSome && (segParam h "min_duration_off").isSome
      then t.SEG_MIN_DURATION_OFF else segParam h "min_duration_off") ∧
    (segParam (applyTunables t h) "threshold" =
      if t.SEG_THRESHOLD.isSome && (segParam h "threshold").isSome
      then t.SEG_THRESHOLD else segParam h "threshold") ∧
    (segParam (applyTunables t h) "onset" =
      if t.SEG_ONSET.isSome && (segParam h "onset").isSome
      then t.SEG_ONSET else segParam h "onset") ∧
    (segParam (applyTunables t h) "offset" =
      if t.SEG_OFFSET.isSome && (segParam h "offset").isSome
      then t.SEG_OFFSET else segParam h "offset") ∧
    load_pipeline (Except.ok h) t =
      Except.ok (if any_tunable t then applyTunables t h else h) :=
  ⟨clusteringThreshold_applyTunables t h,
   segParam_applyTunables t h _ _ (fun seg => (segPairs_foldl_lookup t seg).1),
   segParam_applyTunables t h _ _ (fun seg => (segPairs_foldl_lookup t seg).2.1),
   segParam_applyTunables t h _ _ (fun seg => (segPairs_foldl_lookup t seg).2.2.1),
   segParam_applyTunables t h _ _ (fun seg => (segPairs_foldl_lookup t seg).2.2.2.1),
   segParam_applyTunables t h _ _ (fun seg => (segPairs_foldl_lookup t seg).2.2.2.2),
   rfl⟩

end DiarService
